import Mathlib

/-!
Verification of the PersonalEmailClient repository against its
natural-language specification.

JavaScript strings are modelled as `List Char` (`JStr`).  The frontend
source (`frontend/renderer.js`, `frontend/preload.js`, `frontend/main.js`)
is embedded directly.  The Python backend (message store, sanitizer,
dedup resolver, sync orchestrator) is not part of the checked-in source
tree; where a claim depends on it, the component is modelled from the
specification, as marked in the corresponding doc comments.
-/

namespace EmailClient

/-- JavaScript strings modelled as lists of characters. -/
abbrev JStr := List Char

/-- Convenience conversion from a Lean string literal to `JStr`. -/
def str (s : String) : JStr := s.data

/-! ### escapeHtml (frontend/renderer.js, lines 105-107)

`function escapeHtml(str){ return str.replace(/[&<>"']/g, c =>
  ({'&':'&amp;','<':'&lt;','>':'&gt;','"':'&quot;','\'':'&#39;'}[c])); }`

The regex replace maps each character independently, so it is the
character-wise flat map of `escChar`. -/

/-- Per-character escaping table of `escapeHtml`. -/
def escChar (c : Char) : JStr :=
  if c = '&' then ['&', 'a', 'm', 'p', ';']
  else if c = '<' then ['&', 'l', 't', ';']
  else if c = '>' then ['&', 'g', 't', ';']
  else if c = '"' then ['&', 'q', 'u', 'o', 't', ';']
  else if c = '\'' then ['&', '#', '3', '9', ';']
  else [c]

/-- `escapeHtml` from `renderer.js`: character-wise entity escaping. -/
def escapeHtml : JStr → JStr
  | [] => []
  | c :: rest => escChar c ++ escapeHtml rest

/-- Boolean prefix test on `JStr`. -/
def isPre : JStr → JStr → Bool
  | [], _ => true
  | _ :: _, [] => false
  | a :: as, b :: bs => a == b && isPre as bs

/-- Inverse of `escapeHtml`: decodes exactly the five entities it emits. -/
def unescapeHtml : JStr → JStr
  | [] => []
  | c :: rest =>
    if c = '&' then
      if isPre ['a', 'm', 'p', ';'] rest then '&' :: unescapeHtml (rest.drop 4)
      else if isPre ['l', 't', ';'] rest then '<' :: unescapeHtml (rest.drop 3)
      else if isPre ['g', 't', ';'] rest then '>' :: unescapeHtml (rest.drop 3)
      else if isPre ['q', 'u', 'o', 't', ';'] rest then '"' :: unescapeHtml (rest.drop 5)
      else if isPre ['#', '3', '9', ';'] rest then '\'' :: unescapeHtml (rest.drop 4)
      else '&' :: unescapeHtml rest
    else c :: unescapeHtml rest
termination_by l => l.length
decreasing_by all_goals simp [List.length_drop] <;> omega

/-! ### Renderer strings and state (frontend/renderer.js)

`highlight`, `makeSnippet`, `renderList`, `showDetail`,
`updatePaginationControls` and the page/search/trash state are embedded
below.  JavaScript `s || d` on strings is falsy exactly on the empty
string, modelled by `jsOr`.  The regular expressions `/\s+/` and the
case-insensitive token regexes are modelled character-wise; `\s` is
modelled by the common ASCII whitespace characters and JavaScript
case-insensitive matching by ASCII `Char.toLower`. -/

/-- JavaScript `s || d` for strings (empty string is falsy). -/
def jsOr (s d : JStr) : JStr := if s = [] then d else s

/-- Whitespace class used for `/\s+/` and `String.trim`. -/
def isWs (c : Char) : Bool := c = ' ' || c = '\t' || c = '\n' || c = '\r'

/-- JavaScript `String.prototype.trim`. -/
def trimWs (s : JStr) : JStr :=
  ((s.dropWhile isWs).reverse.dropWhile isWs).reverse

/-- `s.replace(/\s+/g, ' ')`: each maximal whitespace run becomes one
space.  Fuel-driven recursion; the fuel is the input length, and each
step consumes at least one character. -/
def collapseWsAux : Nat → JStr → JStr
  | 0, l => l
  | _ + 1, [] => []
  | f + 1, c :: rest =>
    if isWs c then ' ' :: collapseWsAux f (rest.dropWhile isWs)
    else c :: collapseWsAux f rest

/-- `s.replace(/\s+/g, ' ')`. -/
def collapseWs (s : JStr) : JStr := collapseWsAux s.length s

/-- `s.split(/\s+/).filter(Boolean)`: the maximal non-whitespace runs
of `s` (renderer.js line 64, the search-token list). -/
def wordsAux : Nat → JStr → List JStr
  | 0, _ => []
  | f + 1, s =>
    let s1 := s.dropWhile isWs
    match s1 with
    | [] => []
    | _ :: _ =>
      s1.takeWhile (fun c => !isWs c) :: wordsAux f (s1.dropWhile (fun c => !isWs c))

/-- Search tokens computed by `renderList` from the current search box. -/
def searchTokens (s : JStr) : List JStr := wordsAux (s.length + 1) s

/-- Case-insensitive character comparison (JavaScript `i` regex flag,
ASCII case folding). -/
def lowerEq (a b : Char) : Bool := a.toLower == b.toLower

/-- `t` is a case-insensitive prefix of `s`. -/
def matchCI : JStr → JStr → Bool
  | [], _ => true
  | _ :: _, [] => false
  | a :: as, b :: bs => lowerEq a b && matchCI as bs

/-- `out.replace(new RegExp('(' + escapedToken + ')', 'ig'),
'<mark>$1</mark>')`: wrap every non-overlapping case-insensitive
occurrence of the (regex-escaped, hence literal) token.  `$1` keeps the
original case of the matched text.  Fuel-driven left-to-right scan. -/
def markTokenAux (t : JStr) : Nat → JStr → JStr
  | 0, out => out
  | _ + 1, [] => []
  | f + 1, c :: rest =>
    if matchCI t (c :: rest) then
      str "<mark>" ++ (c :: rest).take t.length ++ str "</mark>" ++
        markTokenAux t f ((c :: rest).drop t.length)
    else c :: markTokenAux t f rest

/-- One `out.replace(...)` step of `highlight`'s token loop.  The empty
token never occurs (`renderList` filters empty tokens out); it is mapped
to the identity. -/
def markToken (t out : JStr) : JStr :=
  if t = [] then out else markTokenAux t out.length out

/-- The `for (const t of tokens)` loop of `highlight`. -/
def markFold (tokens : List JStr) (out : JStr) : JStr :=
  tokens.foldl (fun o t => markToken t o) out

/-- `highlight(text, tokens)` from renderer.js: escape first, then wrap
token matches in `<mark>` elements. -/
def highlight (text : JStr) (tokens : List JStr) : JStr :=
  if text = [] then []
  else if tokens = [] then escapeHtml text
  else markFold tokens (escapeHtml text)

/-- First index of a case-insensitive occurrence of `t`
(`text.toLowerCase().indexOf(t.toLowerCase())`, with `none` for `-1`). -/
def idxOfCI (t : JStr) : JStr → Option Nat
  | [] => if t = [] then some 0 else none
  | c :: rest =>
    if matchCI t (c :: rest) then some 0
    else (idxOfCI t rest).map (· + 1)

/-- The minimal found token index computed by `makeSnippet`'s loop. -/
def bestIdx (text : JStr) (tokens : List JStr) : Option Nat :=
  tokens.foldl
    (fun acc t =>
      match idxOfCI t text, acc with
      | some i, some j => some (min i j)
      | some i, none => some i
      | none, a => a)
    none

/-- `makeSnippet(bodyPlain, tokens, maxLen = 140)` from renderer.js. -/
def makeSnippet (bodyPlain : JStr) (tokens : List JStr) (maxLen : Nat) : JStr :=
  if bodyPlain = [] then []
  else
    let text := trimWs (collapseWs bodyPlain)
    if tokens = [] then escapeHtml (text.take maxLen)
    else
      let start :=
        match bestIdx text tokens with
        | some i => if i > 20 then i - 20 else 0
        | none => 0
      let snippet := (text.drop start).take maxLen
      (if start > 0 then ['…'] else []) ++ snippet ++
        (if start + maxLen < text.length then ['…'] else [])

/-- A message object as returned by the backend and consumed by
renderer.js (fields the renderer reads). -/
structure Msg where
  id : Nat
  subject : JStr
  from_addr : JStr
  to_addrs : JStr
  date_received : JStr
  body_plain : JStr
  body_html_sanitized : JStr
  hidden : Bool
deriving DecidableEq

/-- A DOM write: `element.textContent = s` or `element.innerHTML = s`. -/
inductive DomWrite where
  | text (s : JStr)
  | html (s : JStr)
deriving DecidableEq

/-- Whether a DOM write goes through `textContent` (never parsed as HTML). -/
def DomWrite.isTextWrite : DomWrite → Bool
  | .text _ => true
  | .html _ => false

/-- The subject string `renderList` builds for a list entry
(`highlight(m.subject || '(No Subject)', tokens)`). -/
def listSubjectHtml (m : Msg) (tokens : List JStr) : JStr :=
  highlight (jsOr m.subject (str "(No Subject)")) tokens

/-- The from-address string `renderList` builds
(`highlight(m.from_addr || '', tokens)`). -/
def listFromHtml (m : Msg) (tokens : List JStr) : JStr :=
  highlight (jsOr m.from_addr []) tokens

/-- The body-snippet string `renderList` builds
(`highlight(makeSnippet(m.body_plain || '', tokens), tokens)`). -/
def listSnippetHtml (m : Msg) (tokens : List JStr) : JStr :=
  highlight (makeSnippet (jsOr m.body_plain []) tokens 140) tokens

/-- The detail subject write of `showDetail`
(`detailSubjectEl.textContent = msg.subject || '(No Subject)'`). -/
def showDetailSubjectWrite (m : Msg) : DomWrite :=
  .text (jsOr m.subject (str "(No Subject)"))

/-- The detail meta write of `showDetail`
(`detailMetaEl.textContent = ...`); `fmtDate` abstracts `formatDate`,
whose locale-dependent `Date` formatting is outside the embedding. -/
def showDetailMetaWrite (m : Msg) (fmtDate : JStr → JStr) : DomWrite :=
  .text (m.from_addr ++ str " → " ++ m.to_addrs ++ str " | " ++
    fmtDate m.date_received)

/-- The string assigned to `detailBodyEl.innerHTML` by `showDetail`:
`msg.body_html_sanitized || `<pre>${escapeHtml(msg.body_plain || '')}</pre>``. -/
def showDetailBodyHtml (m : Msg) : JStr :=
  jsOr m.body_html_sanitized
    (str "<pre>" ++ escapeHtml (jsOr m.body_plain []) ++ str "</pre>")

/-- The detail body write of `showDetail` (an `innerHTML` assignment). -/
def showDetailBodyWrite (m : Msg) : DomWrite := .html (showDetailBodyHtml m)

/-- Decimal digits of a natural number (JavaScript number-to-string
interpolation for the non-negative integers used as ids and pages). -/
def natDigits (n : Nat) : JStr :=
  if _h : n < 10 then [Char.ofNat (48 + n)]
  else natDigits (n / 10) ++ [Char.ofNat (48 + n % 10)]
termination_by n
decreasing_by exact Nat.div_lt_self (by omega) (by omega)

/-- `PAGE_SIZE` from renderer.js line 14. -/
def PAGE_SIZE : Nat := 50

/-- The state `updatePaginationControls` leaves the pagination DOM in. -/
structure PaginationControls where
  pageIndicator : JStr
  prevDisabled : Bool
  nextDisabled : Bool
deriving DecidableEq

/-- `updatePaginationControls(count)` from renderer.js lines 51-56,
parameterised by the `currentPage` state it reads. -/
def updatePaginationControls (currentPage count : Nat) : PaginationControls :=
  { pageIndicator := str "Page " ++ natDigits currentPage
    prevDisabled := decide (currentPage = 1)
    nextDisabled := decide (count < PAGE_SIZE) }

/-- The renderer state touched by the UI event handlers. -/
structure RState where
  currentPage : Nat
  currentSearch : JStr
  showingTrash : Bool
deriving DecidableEq

/-- Initial renderer state (renderer.js lines 11-13). -/
def initState : RState :=
  { currentPage := 1, currentSearch := [], showingTrash := false }

/-- The UI events that modify pagination/search/trash state. -/
inductive UIEvent where
  | search (box : JStr)
  | clearSearch
  | trashToggle (checked : Bool)
  | prevPage
  | nextPage
deriving DecidableEq

/-- State transition of each event handler: `doSearch`, `clearSearch`,
the `trashToggle.onchange`, `prevPageBtn.onclick`, `nextPageBtn.onclick`
from renderer.js. -/
def step (s : RState) : UIEvent → RState
  | .search box => { s with currentSearch := trimWs box, currentPage := 1 }
  | .clearSearch => { s with currentSearch := [], currentPage := 1 }
  | .trashToggle b => { s with showingTrash := b, currentPage := 1 }
  | .prevPage =>
    if s.currentPage > 1 then { s with currentPage := s.currentPage - 1 } else s
  | .nextPage => { s with currentPage := s.currentPage + 1 }

/-- Run a sequence of UI events. -/
def runEvents (s : RState) : List UIEvent → RState
  | [] => s
  | e :: es => runEvents (step s e) es

/-- Modelled from the spec: offset-based pagination of the backend list
endpoint (§4.5: "Pagination is offset-based (`page`, `page_size`)"); the
backend itself is not part of the checked-in source.  Page numbers are
1-based as in the API. -/
def paginate {α : Type} (xs : List α) (page size : Nat) : List α :=
  (xs.drop ((page - 1) * size)).take size

/-- The message used to refute claim C2 as stated: a message whose
sanitized-HTML body field carries markup (script content standing for
arbitrary unescaped backend response content). -/
def xssMsg : Msg :=
  { id := 1, subject := [], from_addr := [], to_addrs := [],
    date_received := [], body_plain := [],
    body_html_sanitized := str "<script>alert(1)</script>", hidden := false }

/-- A concrete well-formed message, used by witnesses. -/
def demoMsg : Msg :=
  { id := 2, subject := str "Hello", from_addr := str "a@b.c",
    to_addrs := str "d@e.f", date_received := str "2024-01-01",
    body_plain := str "hi there", body_html_sanitized := str "<p>x</p>",
    hidden := false }

/-! ### Preload bridge (frontend/preload.js)

`resolvePort`, `BASE`, `apiGet`, `apiPost` and the `emailApi` operations
are embedded as constructors of `Request` values.  The JSON bodies built
with `JSON.stringify({...})` are modelled as their field lists.  Numeric
ids, pages and ports are stringified with `natDigits`, matching
JavaScript template interpolation of the non-negative integers the UI
passes. -/

/-- An HTTP request as constructed by the preload bridge. -/
structure Request where
  method : JStr
  path : JStr
  query : List (JStr × JStr)
  headers : List (JStr × JStr)
  jsonBody : List (JStr × JStr)
deriving DecidableEq

/-- `BACKEND_TOKEN = process.env.BACKEND_TOKEN || 'dev-token'`
(preload.js line 3). -/
def backendToken (env : Option JStr) : JStr :=
  match env with
  | some v => jsOr v (str "dev-token")
  | none => str "dev-token"

/-- JavaScript `s.split('=')`. -/
def splitEq : JStr → List JStr
  | [] => [[]]
  | c :: rest =>
    match splitEq rest with
    | [] => [[c]]
    | h :: t => if c = '=' then [] :: h :: t else (c :: h) :: t

/-- Truthiness of an optional environment variable (an unset variable
and the empty string are falsy). -/
def jsTruthyEnv : Option JStr → Bool
  | some v => !v.isEmpty
  | none => false

/-- `resolvePort` from preload.js lines 4-9: the `ACTUAL_BACKEND_PORT`
environment variable wins, then the first `--backend-port=` process
argument (its `split('=')[1]` part), then `'8137'`. -/
def resolvePort (envPort : Option JStr) (argv : List JStr) : JStr :=
  let arg := argv.find? (fun a => isPre (str "--backend-port=") a)
  if jsTruthyEnv envPort then envPort.getD []
  else
    match arg with
    | some a => ((splitEq a).get? 1).getD []
    | none => str "8137"

/-- `BASE` from preload.js line 10. -/
def baseUrl (envPort : Option JStr) (argv : List JStr) : JStr :=
  str "http://127.0.0.1:" ++ resolvePort envPort argv

/-- `apiGet(path, params)`: GET on `BASE + path` with the
`X-Auth-Token` header (preload.js lines 12-18). -/
def apiGet (tok path : JStr) (params : List (JStr × JStr)) : Request :=
  { method := str "GET", path := path, query := params,
    headers := [(str "X-Auth-Token", tok)], jsonBody := [] }

/-- `apiPost(path, params)`: POST on `BASE + path` with the
`X-Auth-Token` header (preload.js lines 20-26). -/
def apiPost (tok path : JStr) (params : List (JStr × JStr)) : Request :=
  { method := str "POST", path := path, query := params,
    headers := [(str "X-Auth-Token", tok)], jsonBody := [] }

namespace emailApi

/-- `health()` (preload.js line 29). -/
def health (tok : JStr) : Request := apiGet tok (str "/health") []

/-- `sync(host, username, password, port = 993)` (line 30). -/
def sync (tok host username password : JStr) (port : Nat) : Request :=
  apiPost tok (str "/sync")
    [(str "host", host), (str "port", natDigits port),
      (str "username", username), (str "password", password)]

/-- `listMessages(page, page_size, search)` (line 31); the `search`
query parameter is present only for a truthy (non-empty) search. -/
def listMessages (tok : JStr) (page page_size : Nat) (search : JStr) : Request :=
  apiGet tok (str "/messages")
    ([(str "page", natDigits page), (str "page_size", natDigits page_size)] ++
      (if search = [] then [] else [(str "search", search)]))

/-- `getMessage(id)` (line 32). -/
def getMessage (tok : JStr) (id : Nat) : Request :=
  apiGet tok (str "/messages/" ++ natDigits id) []

/-- `deleteMessage(id)` (line 33). -/
def deleteMessage (tok : JStr) (id : Nat) : Request :=
  apiPost tok (str "/messages/" ++ natDigits id ++ str "/delete") []

/-- `restoreMessage(id)` (line 34). -/
def restoreMessage (tok : JStr) (id : Nat) : Request :=
  apiPost tok (str "/messages/" ++ natDigits id ++ str "/restore") []

/-- `listTrash(page, page_size)` (line 35). -/
def listTrash (tok : JStr) (page page_size : Nat) : Request :=
  apiGet tok (str "/trash")
    [(str "page", natDigits page), (str "page_size", natDigits page_size)]

/-- `listAccounts()` (line 36). -/
def listAccounts (tok : JStr) : Request := apiGet tok (str "/accounts") []

/-- `createAccount(...)` (lines 37-41): direct `fetch` POST with a JSON
body and both the content-type and auth headers. -/
def createAccount (tok email_address imap_host : JStr) (imap_port : Nat)
    (username password : JStr) : Request :=
  { method := str "POST", path := str "/accounts", query := [],
    headers := [(str "Content-Type", str "application/json"),
      (str "X-Auth-Token", tok)],
    jsonBody := [(str "email_address", email_address),
      (str "imap_host", imap_host), (str "imap_port", natDigits imap_port),
      (str "username", username), (str "password", password)] }

/-- `syncAccount(account_id)` (line 42). -/
def syncAccount (tok : JStr) (account_id : Nat) : Request :=
  apiPost tok (str "/accounts/" ++ natDigits account_id ++ str "/sync") []

/-- `rotatePassword(account_id, password)` (lines 43-47): direct `fetch`
PUT with a JSON body and both headers. -/
def rotatePassword (tok : JStr) (account_id : Nat) (password : JStr) : Request :=
  { method := str "PUT",
    path := str "/accounts/" ++ natDigits account_id ++ str "/password",
    query := [],
    headers := [(str "Content-Type", str "application/json"),
      (str "X-Auth-Token", tok)],
    jsonBody := [(str "password", password)] }

/-- `gmailAuthUrl()` (line 48). -/
def gmailAuthUrl (tok : JStr) : Request := apiGet tok (str "/gmail/auth_url") []

/-- `gmailSync(account_id)` (line 49). -/
def gmailSync (tok : JStr) (account_id : Nat) : Request :=
  apiPost tok (str "/gmail/sync") [(str "account_id", natDigits account_id)]

/-- `deleteAccount(account_id)` (lines 50-53): direct `fetch` DELETE
with the auth header. -/
def deleteAccount (tok : JStr) (account_id : Nat) : Request :=
  { method := str "DELETE",
    path := str "/accounts/" ++ natDigits account_id, query := [],
    headers := [(str "X-Auth-Token", tok)], jsonBody := [] }

end emailApi

/-- The request carries the shared-secret auth header with value `tok`. -/
def hasAuthHeader (tok : JStr) (r : Request) : Prop :=
  (str "X-Auth-Token", tok) ∈ r.headers

/-- A string containing no path separator. -/
def noSlash (s : JStr) : Prop := '/' ∉ s

/-- The path patterns of the section 6 interface table (the browser-flow
`/gmail/callback` endpoint is navigated to by Google, not fetched by the
bridge). -/
def inTable (p : JStr) : Prop :=
  p = str "/health" ∨ p = str "/sync" ∨ p = str "/messages" ∨
  (∃ s, noSlash s ∧ p = str "/messages/" ++ s) ∨
  (∃ s, noSlash s ∧ p = str "/messages/" ++ s ++ str "/delete") ∨
  (∃ s, noSlash s ∧ p = str "/messages/" ++ s ++ str "/restore") ∨
  p = str "/trash" ∨ p = str "/accounts" ∨
  (∃ s, noSlash s ∧ p = str "/accounts/" ++ s) ∨
  (∃ s, noSlash s ∧ p = str "/accounts/" ++ s ++ str "/password") ∨
  (∃ s, noSlash s ∧ p = str "/accounts/" ++ s ++ str "/sync") ∨
  p = str "/gmail/auth_url" ∨ p = str "/gmail/sync"

/-! ### Message store and sync orchestrator (modelled from the spec)

The Python backend is not part of the checked-in source (only the
frontend is); the store and orchestrator below are modelled from spec
sections 3, 4.1, 4.4 and 4.5. -/

/-- Modelled from the spec: a stored message row (§3 "Message"); the
fields the dedup invariant speaks about plus the per-message payload
written by sync. -/
structure StoredMsg where
  account_id : Nat
  external_id : JStr
  subject : JStr
  from_addr : JStr
  body_plain : JStr
  body_html_sanitized : JStr
  hidden : Bool
deriving DecidableEq

/-- Modelled from the spec: a raw fetched message produced by a mail
source adapter (§4.3). -/
structure RawMsg where
  external_id : JStr
  subject : JStr
  from_addr : JStr
  body_plain : JStr
  body_html : JStr
deriving DecidableEq

/-- `(account_id, key)` already exists in the store (§4.4). -/
def hasKey (store : List StoredMsg) (acct : Nat) (k : JStr) : Bool :=
  store.any (fun m => m.account_id == acct && m.external_id == k)

/-- The summary a sync cycle returns (§4.4). -/
structure SyncResult where
  store : List StoredMsg
  fetched : Nat
  inserted : Nat
  skipped : Nat
deriving DecidableEq

/-- The row the orchestrator inserts for a raw message: the resolved
dedup key and the sanitized body (§4.4). -/
def mkStored (resolve : RawMsg → JStr) (sanitize : JStr → JStr) (acct : Nat)
    (r : RawMsg) : StoredMsg :=
  { account_id := acct, external_id := resolve r, subject := r.subject,
    from_addr := r.from_addr, body_plain := r.body_plain,
    body_html_sanitized := sanitize r.body_html, hidden := false }

/-- Modelled from the spec: the sync orchestrator's per-message loop
(§4.4): resolve the dedup key (the pure resolver of §4.1 is the
`resolve` parameter), skip when `(account_id, key)` already exists,
otherwise sanitize and insert; returns the fetched/inserted/skipped
summary. -/
def runSync (resolve : RawMsg → JStr) (sanitize : JStr → JStr) (acct : Nat)
    (store : List StoredMsg) : List RawMsg → SyncResult
  | [] => { store := store, fetched := 0, inserted := 0, skipped := 0 }
  | r :: rest =>
    if hasKey store acct (resolve r) then
      let res := runSync resolve sanitize acct store rest
      { res with fetched := res.fetched + 1, skipped := res.skipped + 1 }
    else
      let res := runSync resolve sanitize acct
        (store ++ [mkStored resolve sanitize acct r]) rest
      { res with fetched := res.fetched + 1, inserted := res.inserted + 1 }

/-- The store-level uniqueness invariant (§3): messages of the same
account with equal dedup keys are the same row. -/
def uniqKeys (store : List StoredMsg) : Prop :=
  ∀ m1 ∈ store, ∀ m2 ∈ store,
    m1.account_id = m2.account_id → m1.external_id = m2.external_id → m1 = m2

/-! ### Hide / restore and the audit log (modelled from the spec) -/

/-- Modelled from the spec: an append-only audit log entry (§3):
message reference, action (`delete` or `restore`), timestamp. -/
structure AuditLogEntry where
  message_id : Nat
  action : JStr
  timestamp : Nat
deriving DecidableEq

/-- Modelled from the spec: a message row as seen by hide/restore — its
id, hidden flag, and the rest of the row (opaque payload). -/
structure MailRow where
  id : Nat
  hidden : Bool
  payload : JStr
deriving DecidableEq

/-- Modelled from the spec: the message store state hide/restore act on,
with its append-only audit log. -/
structure MailStore where
  msgs : List MailRow
  audit : List AuditLogEntry
deriving DecidableEq

/-- Mark the row with the given id hidden. -/
def hideRow (i : Nat) (m : MailRow) : MailRow :=
  if m.id = i then { m with hidden := true } else m

/-- Mark the row with the given id visible. -/
def unhideRow (i : Nat) (m : MailRow) : MailRow :=
  if m.id = i then { m with hidden := false } else m

/-- A visible message with this id exists (the transition `hide` acts on). -/
def canHide (s : MailStore) (i : Nat) : Bool :=
  s.msgs.any (fun m => m.id == i && !m.hidden)

/-- A hidden message with this id exists (the transition `restore` acts on). -/
def canRestore (s : MailStore) (i : Nat) : Bool :=
  s.msgs.any (fun m => m.id == i && m.hidden)

/-- Modelled from the spec: `hide(id)` (§4.5): an idempotent soft-delete
transition; when it changes state it appends a `delete` audit entry, and
hiding an already-hidden (or absent) message is a no-op. -/
def hide (s : MailStore) (i ts : Nat) : MailStore :=
  if canHide s i then
    { msgs := s.msgs.map (hideRow i),
      audit := s.audit ++ [⟨i, str "delete", ts⟩] }
  else s

/-- Modelled from the spec: `restore(id)` (§4.5): the inverse idempotent
transition, appending a `restore` audit entry when it changes state. -/
def restore (s : MailStore) (i ts : Nat) : MailStore :=
  if canRestore s i then
    { msgs := s.msgs.map (unhideRow i),
      audit := s.audit ++ [⟨i, str "restore", ts⟩] }
  else s

/-- Row ids are unique in the store (primary-key invariant). -/
def uniqIds (rows : List MailRow) : Prop :=
  ∀ m1 ∈ rows, ∀ m2 ∈ rows, m1.id = m2.id → m1 = m2

/-! ### Sanitizer (modelled from the spec, §4.2)

The backend sanitizer is not part of the checked-in source.  It is
modelled from the spec's words: raw HTML is parsed tolerantly into a
token stream (malformed input, truncated tags and unclosed elements
never fail — unparsable tails fall back to text); `script` and `style`
elements are removed with their content; inline `on*` event-handler
attributes are stripped; `img` `src` URLs are rewritten to a blocked
placeholder while the original URL is captured into the ImageSource
list.  (CSS `background` URL rewriting from §4.2 is not modelled.) -/

/-- An HTML attribute. -/
structure Attr where
  name : JStr
  value : JStr
deriving DecidableEq

/-- A token of the tolerant HTML lexer. -/
inductive Tok where
  | text (s : JStr)
  | tagOpen (name : JStr) (attrs : List Attr)
  | tagClose (name : JStr)
deriving DecidableEq

/-- ASCII letter. -/
def isLetter (c : Char) : Bool :=
  ('a' ≤ c && c ≤ 'z') || ('A' ≤ c && c ≤ 'Z')

/-- Characters allowed in a tag name. -/
def isNameChar (c : Char) : Bool :=
  isLetter c || ('0' ≤ c && c ≤ '9')

/-- Characters allowed in an attribute name. -/
def isAttrNameChar (c : Char) : Bool :=
  isNameChar c || c = '-' || c = ':'

/-- ASCII lowercasing of a name. -/
def toLowerStr (s : JStr) : JStr := s.map Char.toLower

/-- Attribute parser: consumes up to the closing `>` (or the end of the
input, for truncated tags) and returns the parsed attributes and the
input remaining after the tag.  Fuel-driven; each step consumes at least
one character. -/
def parseAttrs : Nat → JStr → List Attr × JStr
  | 0, cs => ([], cs)
  | f + 1, cs =>
    let cs1 := cs.dropWhile (fun c => isWs c || c = '/')
    match cs1 with
    | [] => ([], [])
    | '>' :: r => ([], r)
    | _ :: r =>
      let n := cs1.takeWhile isAttrNameChar
      if n = [] then parseAttrs f r
      else
        let cs2 := (cs1.dropWhile isAttrNameChar).dropWhile isWs
        match cs2 with
        | '=' :: r2 =>
          let r3 := r2.dropWhile isWs
          match r3 with
          | '"' :: r4 =>
            let v := r4.takeWhile (fun c => c != '"')
            let r5 := (r4.dropWhile (fun c => c != '"')).drop 1
            let (as, rest) := parseAttrs f r5
            (⟨toLowerStr n, v⟩ :: as, rest)
          | '\'' :: r4 =>
            let v := r4.takeWhile (fun c => c != '\'')
            let r5 := (r4.dropWhile (fun c => c != '\'')).drop 1
            let (as, rest) := parseAttrs f r5
            (⟨toLowerStr n, v⟩ :: as, rest)
          | _ =>
            let v := r3.takeWhile (fun c => !isWs c && c != '>')
            let r4 := r3.dropWhile (fun c => !isWs c && c != '>')
            let (as, rest) := parseAttrs f r4
            (⟨toLowerStr n, v⟩ :: as, rest)
        | _ =>
          let (as, rest) := parseAttrs f cs2
          (⟨toLowerStr n, []⟩ :: as, rest)

/-- The character occurs in the string. -/
def listHas (l : JStr) (c : Char) : Bool := l.any (fun d => d == c)

/-- Tolerant HTML lexer.  A `<` that does not begin a well-formed tag is
literal text; a tag with no closing `>` before the end of the input makes
the whole tail literal text (the plain-text fallback for malformed
input).  Fuel-driven; each step consumes at least one character. -/
def tokenize : Nat → JStr → List Tok
  | 0, cs => if cs = [] then [] else [.text cs]
  | f + 1, cs =>
    match cs with
    | [] => []
    | '<' :: rest =>
      match rest with
      | '/' :: r2 =>
        if r2.takeWhile isLetter ≠ [] then
          match (r2.dropWhile isNameChar).dropWhile (fun c => c != '>') with
          | '>' :: r3 =>
            .tagClose (toLowerStr (r2.takeWhile isNameChar)) :: tokenize f r3
          | _ => [.text ('<' :: rest)]
        else .text ['<'] :: tokenize f rest
      | c :: _ =>
        if isLetter c then
          if listHas rest '>' then
            let name := rest.takeWhile isNameChar
            let (attrs, r3) := parseAttrs (rest.length + 1) (rest.dropWhile isNameChar)
            .tagOpen (toLowerStr name) attrs :: tokenize f r3
          else [.text ('<' :: rest)]
        else .text ['<'] :: tokenize f rest
      | [] => [.text ['<']]
    | _ :: _ =>
      .text (cs.takeWhile (fun d => d != '<')) ::
        tokenize f (cs.dropWhile (fun d => d != '<'))

/-- Strip inline event-handler attributes: every attribute whose name
starts with `on` (case-insensitive) is removed. -/
def filterAttrs (attrs : List Attr) : List Attr :=
  attrs.filter (fun a => !(isPre ['o', 'n'] (toLowerStr a.name)))

/-- Rewrite an `src` attribute value to the blocked placeholder. -/
def blockSrc (a : Attr) : Attr :=
  if a.name = str "src" then { a with value := str "blocked:" } else a

/-- On an `img` element, block the `src` URL. -/
def imgAttrs (n : JStr) (attrs : List Attr) : List Attr :=
  if n = str "img" then attrs.map blockSrc else attrs

/-- On an `img` element, the original `src` URLs captured for the
ImageSource list. -/
def imgSources (n : JStr) (attrs : List Attr) : List JStr :=
  if n = str "img" then
    (attrs.filter (fun a => a.name == str "src")).map Attr.value
  else []

/-- The sanitizing pass over the token stream: `script`/`style` elements
are dropped with their content (the `Option` state holds the element
being skipped until its close tag), `on*` attributes are stripped, and
`img` sources are blocked and captured. -/
def sanitizeToks : List Tok → Option JStr → List Tok × List JStr
  | [], _ => ([], [])
  | t :: rest, some m =>
    match t with
    | .tagClose n =>
      if n = m then sanitizeToks rest none else sanitizeToks rest (some m)
    | _ => sanitizeToks rest (some m)
  | t :: rest, none =>
    match t with
    | .tagOpen n attrs =>
      if n = str "script" || n = str "style" then sanitizeToks rest (some n)
      else
        let fa := imgAttrs n (filterAttrs attrs)
        let (ts, imgs) := sanitizeToks rest none
        (.tagOpen n fa :: ts, imgSources n (filterAttrs attrs) ++ imgs)
    | .tagClose n =>
      let (ts, imgs) := sanitizeToks rest none
      (.tagClose n :: ts, imgs)
    | .text s =>
      let (ts, imgs) := sanitizeToks rest none
      (.text s :: ts, imgs)

/-- Escaping of text content on serialization. -/
def escTextChar (c : Char) : JStr :=
  if c = '&' then ['&', 'a', 'm', 'p', ';']
  else if c = '<' then ['&', 'l', 't', ';']
  else if c = '>' then ['&', 'g', 't', ';']
  else [c]

/-- Escape text content. -/
def escText : JStr → JStr
  | [] => []
  | c :: rest => escTextChar c ++ escText rest

/-- Escaping of attribute values (quotes additionally escaped). -/
def escAttrChar (c : Char) : JStr :=
  if c = '"' then ['&', 'q', 'u', 'o', 't', ';'] else escTextChar c

/-- Escape an attribute value. -/
def escAttr : JStr → JStr
  | [] => []
  | c :: rest => escAttrChar c ++ escAttr rest

/-- Serialize one attribute. -/
def serializeAttr (a : Attr) : JStr :=
  ' ' :: (a.name ++ '=' :: '"' :: (escAttr a.value ++ ['"']))

/-- Serialize one token. -/
def serializeTok : Tok → JStr
  | .text s => escText s
  | .tagOpen n attrs => '<' :: (n ++ (attrs.map serializeAttr).flatten ++ ['>'])
  | .tagClose n => '<' :: '/' :: (n ++ ['>'])

/-- Serialize a token stream. -/
def serializeToks (ts : List Tok) : JStr := (ts.map serializeTok).flatten

/-- Modelled from the spec: the sanitizer (§4.2).  Total on every input:
returns the safe-for-display HTML and the captured image-source URLs. -/
def sanitizeHtml (input : JStr) : JStr × List JStr :=
  let toks := sanitizeToks (tokenize (input.length + 1) input) none
  (serializeToks toks.1, toks.2)

/-- The sanitizer's output as a token stream (the DOM the output
serializes). -/
def sanitizedToks (input : JStr) : List Tok :=
  (sanitizeToks (tokenize (input.length + 1) input) none).1

/-- The token is not an opening `script` tag. -/
def noScriptTok : Tok → Bool
  | .tagOpen n _ => !(n == str "script")
  | _ => true

/-- The token carries no inline `on*` event-handler attribute. -/
def noOnAttrTok : Tok → Bool
  | .tagOpen _ attrs =>
    attrs.all (fun a => !(isPre ['o', 'n'] (toLowerStr a.name)))
  | _ => true

/-- A concrete store with one visible message, used by witnesses. -/
def demoStore : MailStore :=
  { msgs := [⟨1, false, str "hello"⟩], audit := [] }

/-- Concrete raw messages (a duplicated delivery of external id `X123`),
used by witnesses. -/
def demoRaws : List RawMsg :=
  [⟨str "X123", str "s1", str "f1", str "b1", str "h1"⟩,
    ⟨str "X123", str "s2", str "f2", str "b2", str "h2"⟩,
    ⟨str "Y9", str "s3", str "f3", str "b3", str "h3"⟩]

/-- The output contains none of the four characters that `escapeHtml`
must eliminate (a bare ampersand is allowed, it is checked separately). -/
def noSpecials (l : JStr) : Bool :=
  l.all fun c => !(c == '<' || c == '>' || c == '"' || c == '\'')

/-- Every ampersand in the string begins one of the five entities
emitted by `escapeHtml`. -/
def goodAmps : JStr → Bool
  | [] => true
  | c :: rest =>
    (if c = '&' then
      isPre ['a', 'm', 'p', ';'] rest || isPre ['l', 't', ';'] rest ||
      isPre ['g', 't', ';'] rest || isPre ['q', 'u', 'o', 't', ';'] rest ||
      isPre ['#', '3', '9', ';'] rest
    else true) && goodAmps rest

end EmailClient

namespace EmailClient

lemma noSpecials_append (a b : JStr) :
    noSpecials (a ++ b) = (noSpecials a && noSpecials b) := by
  simp [noSpecials]

lemma goodAmps_amp (l : JStr) :
    goodAmps ('&' :: 'a' :: 'm' :: 'p' :: ';' :: l) = goodAmps l := rfl

lemma goodAmps_lt (l : JStr) :
    goodAmps ('&' :: 'l' :: 't' :: ';' :: l) = goodAmps l := rfl

lemma goodAmps_gt (l : JStr) :
    goodAmps ('&' :: 'g' :: 't' :: ';' :: l) = goodAmps l := rfl

lemma goodAmps_quot (l : JStr) :
    goodAmps ('&' :: 'q' :: 'u' :: 'o' :: 't' :: ';' :: l) = goodAmps l := rfl

lemma goodAmps_apos (l : JStr) :
    goodAmps ('&' :: '#' :: '3' :: '9' :: ';' :: l) = goodAmps l := rfl

lemma goodAmps_cons_ne (c : Char) (hc : c ≠ '&') (l : JStr) :
    goodAmps (c :: l) = goodAmps l := by
  simp [goodAmps, hc]

lemma unescape_amp (l : JStr) :
    unescapeHtml ('&' :: 'a' :: 'm' :: 'p' :: ';' :: l) = '&' :: unescapeHtml l := by
  rw [unescapeHtml]; rfl

lemma unescape_lt (l : JStr) :
    unescapeHtml ('&' :: 'l' :: 't' :: ';' :: l) = '<' :: unescapeHtml l := by
  rw [unescapeHtml]; rfl

lemma unescape_gt (l : JStr) :
    unescapeHtml ('&' :: 'g' :: 't' :: ';' :: l) = '>' :: unescapeHtml l := by
  rw [unescapeHtml]; rfl

lemma unescape_quot (l : JStr) :
    unescapeHtml ('&' :: 'q' :: 'u' :: 'o' :: 't' :: ';' :: l) = '"' :: unescapeHtml l := by
  rw [unescapeHtml]; rfl

lemma unescape_apos (l : JStr) :
    unescapeHtml ('&' :: '#' :: '3' :: '9' :: ';' :: l) = '\'' :: unescapeHtml l := by
  rw [unescapeHtml]; rfl

lemma unescape_cons_ne (c : Char) (hc : c ≠ '&') (l : JStr) :
    unescapeHtml (c :: l) = c :: unescapeHtml l := by
  rw [unescapeHtml, if_neg hc]

lemma escapeHtml_props (s : JStr) :
    noSpecials (escapeHtml s) = true ∧ goodAmps (escapeHtml s) = true ∧
    unescapeHtml (escapeHtml s) = s := by
  induction s with
  | nil =>
    refine ⟨rfl, rfl, ?_⟩
    show unescapeHtml [] = []
    rw [unescapeHtml]
  | cons c rest ih =>
    obtain ⟨ih1, ih2, ih3⟩ := ih
    by_cases h1 : c = '&'
    · subst h1
      refine ⟨?_, ?_, ?_⟩
      · show noSpecials (escChar '&' ++ escapeHtml rest) = true
        rw [show escChar '&' = ['&', 'a', 'm', 'p', ';'] from rfl,
          noSpecials_append, ih1]
        rfl
      · show goodAmps (escChar '&' ++ escapeHtml rest) = true
        rw [show escChar '&' = ['&', 'a', 'm', 'p', ';'] from rfl]
        simpa [goodAmps_amp] using ih2
      · show unescapeHtml (escChar '&' ++ escapeHtml rest) = '&' :: rest
        rw [show escChar '&' = ['&', 'a', 'm', 'p', ';'] from rfl]
        simp [unescape_amp, ih3]
    · by_cases h2 : c = '<'
      · subst h2
        refine ⟨?_, ?_, ?_⟩
        · show noSpecials (escChar '<' ++ escapeHtml rest) = true
          rw [show escChar '<' = ['&', 'l', 't', ';'] from rfl,
            noSpecials_append, ih1]
          rfl
        · show goodAmps (escChar '<' ++ escapeHtml rest) = true
          rw [show escChar '<' = ['&', 'l', 't', ';'] from rfl]
          simpa [goodAmps_lt] using ih2
        · show unescapeHtml (escChar '<' ++ escapeHtml rest) = '<' :: rest
          rw [show escChar '<' = ['&', 'l', 't', ';'] from rfl]
          simp [unescape_lt, ih3]
      · by_cases h3 : c = '>'
        · subst h3
          refine ⟨?_, ?_, ?_⟩
          · show noSpecials (escChar '>' ++ escapeHtml rest) = true
            rw [show escChar '>' = ['&', 'g', 't', ';'] from rfl,
              noSpecials_append, ih1]
            rfl
          · show goodAmps (escChar '>' ++ escapeHtml rest) = true
            rw [show escChar '>' = ['&', 'g', 't', ';'] from rfl]
            simpa [goodAmps_gt] using ih2
          · show unescapeHtml (escChar '>' ++ escapeHtml rest) = '>' :: rest
            rw [show escChar '>' = ['&', 'g', 't', ';'] from rfl]
            simp [unescape_gt, ih3]
        · by_cases h4 : c = '"'
          · subst h4
            refine ⟨?_, ?_, ?_⟩
            · show noSpecials (escChar '"' ++ escapeHtml rest) = true
              rw [show escChar '"' = ['&', 'q', 'u', 'o', 't', ';'] from rfl,
                noSpecials_append, ih1]
              rfl
            · show goodAmps (escChar '"' ++ escapeHtml rest) = true
              rw [show escChar '"' = ['&', 'q', 'u', 'o', 't', ';'] from rfl]
              simpa [goodAmps_quot] using ih2
            · show unescapeHtml (escChar '"' ++ escapeHtml rest) = '"' :: rest
              rw [show escChar '"' = ['&', 'q', 'u', 'o', 't', ';'] from rfl]
              simp [unescape_quot, ih3]
          · by_cases h5 : c = '\''
            · subst h5
              refine ⟨?_, ?_, ?_⟩
              · show noSpecials (escChar '\'' ++ escapeHtml rest) = true
                rw [show escChar '\'' = ['&', '#', '3', '9', ';'] from rfl,
                  noSpecials_append, ih1]
                rfl
              · show goodAmps (escChar '\'' ++ escapeHtml rest) = true
                rw [show escChar '\'' = ['&', '#', '3', '9', ';'] from rfl]
                simpa [goodAmps_apos] using ih2
              · show unescapeHtml (escChar '\'' ++ escapeHtml rest) = '\'' :: rest
                rw [show escChar '\'' = ['&', '#', '3', '9', ';'] from rfl]
                simp [unescape_apos, ih3]
            · have he : escChar c = [c] := by
                simp [escChar, h1, h2, h3, h4, h5]
              refine ⟨?_, ?_, ?_⟩
              · show noSpecials (escChar c ++ escapeHtml rest) = true
                rw [he, noSpecials_append, ih1]
                simp [noSpecials, h2, h3, h4, h5]
              · show goodAmps (escChar c ++ escapeHtml rest) = true
                rw [he]
                simpa [goodAmps_cons_ne c h1] using ih2
              · show unescapeHtml (escChar c ++ escapeHtml rest) = c :: rest
                rw [he]
                simp [unescape_cons_ne c h1, ih3]

/-- Claim C9: for every input string, `escapeHtml` produces output with no
literal `<`, `>`, `"` or `'` character; every `&` in the output begins one
of the five entities; and every other character of the input is preserved
unchanged in order (witnessed by `unescapeHtml` inverting the escape). -/
theorem C9_escapeHtml_escapes (s : JStr) :
    noSpecials (escapeHtml s) = true ∧ goodAmps (escapeHtml s) = true ∧
    unescapeHtml (escapeHtml s) = s :=
  escapeHtml_props s

/-- Claim C3: the client disables the Next button exactly when the
returned message count is below `PAGE_SIZE` (50), so (counts above a full
page being impossible for the offset-based backend pagination) a next
page is inferred if and only if a full page of 50 was returned; in the
120-message scenario, page 3 of size 50 holds 20 items and the client
concludes there is no next page. -/
theorem C3_pagination_next_inference (p count : Nat) (hc : count ≤ PAGE_SIZE)
    (xs : List Nat) (hx : xs.length = 120) :
    ((updatePaginationControls p count).nextDisabled = true ↔ count < PAGE_SIZE) ∧
    ((updatePaginationControls p count).nextDisabled = false ↔ count = PAGE_SIZE) ∧
    (paginate xs 3 PAGE_SIZE).length = 20 ∧
    (updatePaginationControls 3 (paginate xs 3 PAGE_SIZE).length).nextDisabled = true := by
  have hlen : (paginate xs 3 PAGE_SIZE).length = 20 := by
    simp [paginate, hx, PAGE_SIZE]
  refine ⟨?_, ?_, hlen, ?_⟩
  · simp [updatePaginationControls]
  · simp only [updatePaginationControls, decide_eq_false_iff_not, not_lt]
    revert hc
    unfold PAGE_SIZE
    omega
  · show decide ((paginate xs 3 PAGE_SIZE).length < PAGE_SIZE) = true
    rw [hlen]
    decide

/-- Witness for C3 at `count = 20` and 120 backend messages. -/
theorem C3_pagination_next_inference_witness :
    (20 ≤ PAGE_SIZE ∧ (List.range 120).length = 120) ∧
    (((updatePaginationControls 3 20).nextDisabled = true ↔ 20 < PAGE_SIZE) ∧
      ((updatePaginationControls 3 20).nextDisabled = false ↔ 20 = PAGE_SIZE) ∧
      (paginate (List.range 120) 3 PAGE_SIZE).length = 20 ∧
      (updatePaginationControls 3
        (paginate (List.range 120) 3 PAGE_SIZE).length).nextDisabled = true) :=
  ⟨⟨by decide, by simp⟩,
    C3_pagination_next_inference 3 20 (by decide) (List.range 120) (by simp)⟩

lemma step_page_pos (s : RState) (hs : 1 ≤ s.currentPage) (e : UIEvent) :
    1 ≤ (step s e).currentPage := by
  cases e with
  | search box => simp [step]
  | clearSearch => simp [step]
  | trashToggle b => simp [step]
  | prevPage =>
    simp only [step]
    split
    · show 1 ≤ s.currentPage - 1
      omega
    · exact hs
  | nextPage =>
    show 1 ≤ s.currentPage + 1
    omega

lemma runEvents_page_pos (evs : List UIEvent) :
    ∀ s : RState, 1 ≤ s.currentPage → 1 ≤ (runEvents s evs).currentPage := by
  induction evs with
  | nil => intro s hs; simpa [runEvents] using hs
  | cons e es ih =>
    intro s hs
    simp only [runEvents]
    exact ih _ (step_page_pos s hs e)

/-- Claim C8: under every sequence of UI events from the initial state,
`currentPage` stays at least 1; the Prev button is disabled exactly when
`currentPage = 1`; and a new search, clearing the search, or toggling the
trash view each reset `currentPage` to 1. -/
theorem C8_current_page_invariant (evs : List UIEvent) (s : RState)
    (box : JStr) (b : Bool) (count : Nat) :
    1 ≤ (runEvents initState evs).currentPage ∧
    ((updatePaginationControls (runEvents initState evs).currentPage
        count).prevDisabled = true ↔ (runEvents initState evs).currentPage = 1) ∧
    (step s (.search box)).currentPage = 1 ∧
    (step s .clearSearch).currentPage = 1 ∧
    (step s (.trashToggle b)).currentPage = 1 := by
  refine ⟨runEvents_page_pos evs initState (by simp [initState]), ?_, ?_, ?_, ?_⟩
  · simp [updatePaginationControls]
  · simp [step]
  · simp [step]
  · simp [step]

lemma markFold_nil (out : JStr) : markFold [] out = out := rfl

lemma highlight_eq_markFold (text : JStr) (tokens : List JStr)
    (h : text ≠ []) :
    highlight text tokens = markFold tokens (escapeHtml text) := by
  by_cases ht : tokens = []
  · subst ht; simp [highlight, h, markFold_nil]
  · simp [highlight, h, ht]

lemma jsOr_ne_nil (s d : JStr) (hd : d ≠ []) : jsOr s d ≠ [] := by
  by_cases hs : s = [] <;> simp [jsOr, hs, hd]

lemma noSpecials_nil : noSpecials [] = true := rfl

lemma highlight_nil_tokens_noSpecials (text : JStr) :
    noSpecials (highlight text []) = true := by
  by_cases h : text = []
  · simp [highlight, h, noSpecials_nil]
  · simp [highlight, h, (escapeHtml_props text).1]

/-- Claim C2 is false as stated: `showDetail` assigns
`msg.body_html_sanitized` to `detailBodyEl.innerHTML` verbatim, so for a
message whose `body_html_sanitized` is `<script>alert(1)</script>` the
string reaching `innerHTML` is that raw response content, unescaped (it
still contains `<` and differs from its escaped form). -/
theorem C2_renderer_escaping_counterexample :
    showDetailBodyWrite xssMsg =
      .html (str "<script>alert(1)</script>") ∧
    noSpecials (showDetailBodyHtml xssMsg) = false ∧
    showDetailBodyHtml xssMsg ≠
      escapeHtml (str "<script>alert(1)</script>") := by
  refine ⟨by decide, by decide, by decide⟩

/-- Claim C2 (amended): the three strings `renderList` inserts via
`innerHTML` (subject, from address, body snippet) are HTML-escaped by
`highlight` before any mark-up is added; with no search tokens they
contain no `<`, `>`, `"` or `'` at all; the detail subject and meta line
are assigned through `textContent`, not `innerHTML`; and the detail body
is the escaped `body_plain` wrapped in a `pre` element when
`body_html_sanitized` is empty — but a non-empty `body_html_sanitized`
is inserted into `innerHTML` verbatim, without client-side escaping. -/
theorem C2_renderer_escaping_amended (m : Msg) (ts : List JStr)
    (fmt : JStr → JStr) :
    listSubjectHtml m ts =
      markFold ts (escapeHtml (jsOr m.subject (str "(No Subject)"))) ∧
    (jsOr m.from_addr [] ≠ [] →
      listFromHtml m ts = markFold ts (escapeHtml (jsOr m.from_addr []))) ∧
    (makeSnippet (jsOr m.body_plain []) ts 140 ≠ [] →
      listSnippetHtml m ts =
        markFold ts (escapeHtml (makeSnippet (jsOr m.body_plain []) ts 140))) ∧
    (ts = [] →
      noSpecials (listSubjectHtml m ts) = true ∧
      noSpecials (listFromHtml m ts) = true ∧
      noSpecials (listSnippetHtml m ts) = true) ∧
    (showDetailSubjectWrite m).isTextWrite = true ∧
    (showDetailMetaWrite m fmt).isTextWrite = true ∧
    (m.body_html_sanitized = [] →
      showDetailBodyHtml m =
        str "<pre>" ++ escapeHtml (jsOr m.body_plain []) ++ str "</pre>") ∧
    (m.body_html_sanitized ≠ [] →
      showDetailBodyHtml m = m.body_html_sanitized) := by
  refine ⟨?_, ?_, ?_, ?_, rfl, rfl, ?_, ?_⟩
  · exact highlight_eq_markFold _ ts
      (jsOr_ne_nil m.subject (str "(No Subject)") (by decide))
  · intro h
    exact highlight_eq_markFold _ ts h
  · intro h
    exact highlight_eq_markFold _ ts h
  · intro h
    subst h
    exact ⟨highlight_nil_tokens_noSpecials _,
      highlight_nil_tokens_noSpecials _, highlight_nil_tokens_noSpecials _⟩
  · intro h
    simp [showDetailBodyHtml, jsOr, h]
  · intro h
    simp [showDetailBodyHtml, jsOr, h]

/-- Witness for C2 (amended) at the concrete message `demoMsg` with an
empty token list, discharging the conditional parts' hypotheses. -/
theorem C2_renderer_escaping_amended_witness :
    listFromHtml demoMsg [] =
      markFold [] (escapeHtml (jsOr demoMsg.from_addr [])) ∧
    noSpecials (listFromHtml demoMsg []) = true ∧
    showDetailBodyHtml demoMsg = demoMsg.body_html_sanitized := by
  have h := C2_renderer_escaping_amended demoMsg [] id
  exact ⟨h.2.1 (by decide), (h.2.2.2.1 rfl).2.1,
    h.2.2.2.2.2.2.2 (by decide)⟩

/-- Claim C4: every `emailApi` operation sends the `X-Auth-Token` header
with value `BACKEND_TOKEN`, for every argument list. -/
theorem C4_auth_header_on_every_request (env : Option JStr)
    (host username password search email_address imap_host pw : JStr)
    (port page page_size mid aid : Nat) :
    hasAuthHeader (backendToken env) (emailApi.health (backendToken env)) ∧
    hasAuthHeader (backendToken env)
      (emailApi.sync (backendToken env) host username password port) ∧
    hasAuthHeader (backendToken env)
      (emailApi.listMessages (backendToken env) page page_size search) ∧
    hasAuthHeader (backendToken env)
      (emailApi.getMessage (backendToken env) mid) ∧
    hasAuthHeader (backendToken env)
      (emailApi.deleteMessage (backendToken env) mid) ∧
    hasAuthHeader (backendToken env)
      (emailApi.restoreMessage (backendToken env) mid) ∧
    hasAuthHeader (backendToken env)
      (emailApi.listTrash (backendToken env) page page_size) ∧
    hasAuthHeader (backendToken env)
      (emailApi.listAccounts (backendToken env)) ∧
    hasAuthHeader (backendToken env)
      (emailApi.createAccount (backendToken env) email_address imap_host
        port username pw) ∧
    hasAuthHeader (backendToken env)
      (emailApi.syncAccount (backendToken env) aid) ∧
    hasAuthHeader (backendToken env)
      (emailApi.rotatePassword (backendToken env) aid pw) ∧
    hasAuthHeader (backendToken env)
      (emailApi.gmailAuthUrl (backendToken env)) ∧
    hasAuthHeader (backendToken env)
      (emailApi.gmailSync (backendToken env) aid) ∧
    hasAuthHeader (backendToken env)
      (emailApi.deleteAccount (backendToken env) aid) := by
  refine ⟨?_, ?_, ?_, ?_, ?_, ?_, ?_, ?_, ?_, ?_, ?_, ?_, ?_, ?_⟩ <;>
    simp [hasAuthHeader, apiGet, apiPost, emailApi.health, emailApi.sync,
      emailApi.listMessages, emailApi.getMessage, emailApi.deleteMessage,
      emailApi.restoreMessage, emailApi.listTrash, emailApi.listAccounts,
      emailApi.createAccount, emailApi.syncAccount, emailApi.rotatePassword,
      emailApi.gmailAuthUrl, emailApi.gmailSync, emailApi.deleteAccount]

lemma natDigits_no_slash (n : Nat) : '/' ∉ natDigits n := by
  induction n using Nat.strong_induction_on with
  | _ n ih =>
    rw [natDigits]
    split
    · rename_i h
      interval_cases n <;> decide
    · rename_i h
      intro hmem
      rcases List.mem_append.mp hmem with h1 | h2
      · exact ih (n / 10) (Nat.div_lt_self (by omega) (by omega)) h1
      · simp only [List.mem_singleton] at h2
        have h10 : n % 10 < 10 := Nat.mod_lt _ (by omega)
        set m := n % 10 with hm
        interval_cases m <;> exact absurd h2 (by decide)

/-- Claim C7: every request the preload bridge can construct targets a
path of the section 6 interface table, for every token and argument
list (numeric ids as passed by the renderer). -/
theorem C7_paths_in_interface_table (tok host username password search
    email_address imap_host pw : JStr) (port page page_size mid aid : Nat) :
    inTable (emailApi.health tok).path ∧
    inTable (emailApi.sync tok host username password port).path ∧
    inTable (emailApi.listMessages tok page page_size search).path ∧
    inTable (emailApi.getMessage tok mid).path ∧
    inTable (emailApi.deleteMessage tok mid).path ∧
    inTable (emailApi.restoreMessage tok mid).path ∧
    inTable (emailApi.listTrash tok page page_size).path ∧
    inTable (emailApi.listAccounts tok).path ∧
    inTable (emailApi.createAccount tok email_address imap_host port
      username pw).path ∧
    inTable (emailApi.syncAccount tok aid).path ∧
    inTable (emailApi.rotatePassword tok aid pw).path ∧
    inTable (emailApi.gmailAuthUrl tok).path ∧
    inTable (emailApi.gmailSync tok aid).path ∧
    inTable (emailApi.deleteAccount tok aid).path := by
  refine ⟨?_, ?_, ?_, ?_, ?_, ?_, ?_, ?_, ?_, ?_, ?_, ?_, ?_, ?_⟩
  · exact Or.inl rfl
  · exact Or.inr (Or.inl rfl)
  · exact Or.inr (Or.inr (Or.inl rfl))
  · exact Or.inr (Or.inr (Or.inr (Or.inl
      ⟨natDigits mid, natDigits_no_slash mid, rfl⟩)))
  · exact Or.inr (Or.inr (Or.inr (Or.inr (Or.inl
      ⟨natDigits mid, natDigits_no_slash mid, rfl⟩))))
  · exact Or.inr (Or.inr (Or.inr (Or.inr (Or.inr (Or.inl
      ⟨natDigits mid, natDigits_no_slash mid, rfl⟩)))))
  · exact Or.inr (Or.inr (Or.inr (Or.inr (Or.inr (Or.inr (Or.inl rfl))))))
  · exact Or.inr (Or.inr (Or.inr (Or.inr (Or.inr (Or.inr (Or.inr
      (Or.inl rfl)))))))
  · exact Or.inr (Or.inr (Or.inr (Or.inr (Or.inr (Or.inr (Or.inr
      (Or.inl rfl)))))))
  · exact Or.inr (Or.inr (Or.inr (Or.inr (Or.inr (Or.inr (Or.inr (Or.inr
      (Or.inr (Or.inr (Or.inl ⟨natDigits aid, natDigits_no_slash aid,
        rfl⟩))))))))))
  · exact Or.inr (Or.inr (Or.inr (Or.inr (Or.inr (Or.inr (Or.inr (Or.inr
      (Or.inr (Or.inl ⟨natDigits aid, natDigits_no_slash aid, rfl⟩)))))))))
  · exact Or.inr (Or.inr (Or.inr (Or.inr (Or.inr (Or.inr (Or.inr (Or.inr
      (Or.inr (Or.inr (Or.inr (Or.inl rfl)))))))))))
  · exact Or.inr (Or.inr (Or.inr (Or.inr (Or.inr (Or.inr (Or.inr (Or.inr
      (Or.inr (Or.inr (Or.inr (Or.inr rfl)))))))))))
  · exact Or.inr (Or.inr (Or.inr (Or.inr (Or.inr (Or.inr (Or.inr (Or.inr
      (Or.inl ⟨natDigits aid, natDigits_no_slash aid, rfl⟩))))))))

lemma splitEq_ne_nil (l : JStr) : splitEq l ≠ [] := by
  cases l with
  | nil => simp [splitEq]
  | cons c rest =>
    simp only [splitEq]
    rcases splitEq rest with _ | ⟨h0, t⟩
    · simp
    · by_cases hc : c = '=' <;> simp [hc]

lemma splitEq_no_sep (l : JStr) (h : '=' ∉ l) : splitEq l = [l] := by
  induction l with
  | nil => rfl
  | cons c rest ih =>
    have hc : c ≠ '=' := fun hceq => h (hceq ▸ List.mem_cons_self c rest)
    have hr : '=' ∉ rest := fun hmem => h (List.mem_cons_of_mem c hmem)
    simp [splitEq, ih hr, hc]

lemma splitEq_append (l1 l2 : JStr) (h : '=' ∉ l1) :
    splitEq (l1 ++ '=' :: l2) = l1 :: splitEq l2 := by
  induction l1 with
  | nil =>
    simp only [List.nil_append, splitEq]
    rcases hs : splitEq l2 with _ | ⟨h0, t⟩
    · exact absurd hs (splitEq_ne_nil l2)
    · simp
  | cons c r ih =>
    have hc : c ≠ '=' := fun hceq => h (hceq ▸ List.mem_cons_self c r)
    have hr : '=' ∉ r := fun hmem => h (List.mem_cons_of_mem c hmem)
    simp only [List.cons_append, splitEq, List.append_eq]
    rw [ih hr]
    simp [hc]

/-- Claim C10: `resolvePort` precedence is `ACTUAL_BACKEND_PORT`
environment variable (when set non-empty), then the value of the first
`--backend-port=` argument, then `'8137'`; with neither source set the
base URL is `http://127.0.0.1:8137`. -/
theorem C10_resolve_port_precedence (v pv : JStr) (argv argv2 : List JStr)
    (hv : v ≠ [])
    (hfind : argv.find? (fun a => isPre (str "--backend-port=") a) =
      some (str "--backend-port=" ++ pv))
    (hpv : '=' ∉ pv)
    (hnone : argv2.find? (fun a => isPre (str "--backend-port=") a) = none) :
    resolvePort (some v) argv = v ∧
    resolvePort none argv = pv ∧
    resolvePort (some v) argv2 = v ∧
    resolvePort none argv2 = str "8137" ∧
    resolvePort none [] = str "8137" ∧
    baseUrl none [] = str "http://127.0.0.1:8137" := by
  have htr : jsTruthyEnv (some v) = true := by
    simp [jsTruthyEnv, List.isEmpty_iff, hv]
  have hsplit : splitEq (str "--backend-port=" ++ pv) =
      str "--backend-port" :: splitEq pv := by
    have hshape : str "--backend-port=" ++ pv = str "--backend-port" ++ '=' :: pv := rfl
    rw [hshape, splitEq_append (str "--backend-port") pv (by decide)]
  refine ⟨?_, ?_, ?_, ?_, ?_, ?_⟩
  · simp [resolvePort, htr]
  · simp only [resolvePort, jsTruthyEnv, Bool.false_eq_true, if_false, hfind]
    rw [hsplit, splitEq_no_sep pv hpv]
    rfl
  · simp [resolvePort, htr]
  · simp [resolvePort, jsTruthyEnv, hnone]
  · simp [resolvePort, jsTruthyEnv]
  · simp only [baseUrl, resolvePort, jsTruthyEnv]
    rfl

lemma runSync_store_ext (resolve : RawMsg → JStr) (sanitize : JStr → JStr)
    (acct : Nat) (msgs : List RawMsg) :
    ∀ store, ∃ ext,
      (runSync resolve sanitize acct store msgs).store = store ++ ext := by
  induction msgs with
  | nil => intro store; exact ⟨[], by simp [runSync]⟩
  | cons r rest ih =>
    intro store
    simp only [runSync]
    by_cases h : hasKey store acct (resolve r) = true
    · simpa [h] using ih store
    · simp only [h, Bool.false_eq_true, if_false]
      obtain ⟨ext, hext⟩ := ih (store ++ [mkStored resolve sanitize acct r])
      exact ⟨mkStored resolve sanitize acct r :: ext,
        by simpa [List.append_assoc] using hext⟩

lemma hasKey_append_left (store ext : List StoredMsg) (acct : Nat) (k : JStr)
    (h : hasKey store acct k = true) : hasKey (store ++ ext) acct k = true := by
  simp only [hasKey, List.any_append, Bool.or_eq_true]
  exact Or.inl h

lemma runSync_keys_present (resolve : RawMsg → JStr) (sanitize : JStr → JStr)
    (acct : Nat) (msgs : List RawMsg) :
    ∀ store, ∀ r ∈ msgs,
      hasKey (runSync resolve sanitize acct store msgs).store acct
        (resolve r) = true := by
  induction msgs with
  | nil => intro store r hr; cases hr
  | cons r0 rest ih =>
    intro store r hr
    simp only [runSync]
    rcases List.mem_cons.mp hr with rfl | hr2
    · by_cases h : hasKey store acct (resolve r) = true
      · simp only [h, if_true]
        obtain ⟨ext, hext⟩ := runSync_store_ext resolve sanitize acct rest store
        show hasKey (runSync resolve sanitize acct store rest).store acct
          (resolve r) = true
        rw [hext]
        exact hasKey_append_left store ext acct (resolve r) h
      · simp only [h, Bool.false_eq_true, if_false]
        obtain ⟨ext, hext⟩ := runSync_store_ext resolve sanitize acct rest
          (store ++ [mkStored resolve sanitize acct r])
        show hasKey (runSync resolve sanitize acct
          (store ++ [mkStored resolve sanitize acct r]) rest).store acct
          (resolve r) = true
        rw [hext]
        apply hasKey_append_left
        simp [hasKey, mkStored]
    · by_cases h : hasKey store acct (resolve r0) = true
      · simp only [h, if_true]
        exact ih store r hr2
      · simp only [h, Bool.false_eq_true, if_false]
        exact ih _ r hr2

lemma runSync_all_present (resolve : RawMsg → JStr) (sanitize : JStr → JStr)
    (acct : Nat) (msgs : List RawMsg) :
    ∀ store, (∀ r ∈ msgs, hasKey store acct (resolve r) = true) →
      runSync resolve sanitize acct store msgs =
        { store := store, fetched := msgs.length, inserted := 0,
          skipped := msgs.length } := by
  induction msgs with
  | nil => intro store _; simp [runSync]
  | cons r rest ih =>
    intro store h
    have hr := h r (List.mem_cons_self r rest)
    simp only [runSync, hr, if_true]
    rw [ih store (fun r2 hr2 => h r2 (List.mem_cons_of_mem r hr2))]
    simp

lemma hasKey_false_iff (store : List StoredMsg) (acct : Nat) (k : JStr) :
    hasKey store acct k = false ↔
      ∀ m ∈ store, ¬(m.account_id = acct ∧ m.external_id = k) := by
  simp only [hasKey, List.any_eq_false, Bool.and_eq_true, beq_iff_eq]

lemma uniq_insert (store : List StoredMsg) (m : StoredMsg)
    (hu : uniqKeys store)
    (hk : hasKey store m.account_id m.external_id = false) :
    uniqKeys (store ++ [m]) := by
  have hnone := (hasKey_false_iff store m.account_id m.external_id).mp hk
  intro m1 h1 m2 h2 hacc hext
  rcases List.mem_append.mp h1 with h1s | h1m
  · rcases List.mem_append.mp h2 with h2s | h2m
    · exact hu m1 h1s m2 h2s hacc hext
    · rw [List.mem_singleton.mp h2m] at hacc hext
      exact absurd ⟨hacc, hext⟩ (hnone m1 h1s)
  · rcases List.mem_append.mp h2 with h2s | h2m
    · rw [List.mem_singleton.mp h1m] at hacc hext
      exact absurd ⟨hacc.symm, hext.symm⟩ (hnone m2 h2s)
    · rw [List.mem_singleton.mp h1m, List.mem_singleton.mp h2m]

lemma runSync_uniq (resolve : RawMsg → JStr) (sanitize : JStr → JStr)
    (acct : Nat) (msgs : List RawMsg) :
    ∀ store, uniqKeys store →
      uniqKeys (runSync resolve sanitize acct store msgs).store := by
  induction msgs with
  | nil => intro store hu; simpa [runSync] using hu
  | cons r rest ih =>
    intro store hu
    simp only [runSync]
    by_cases h : hasKey store acct (resolve r) = true
    · simp only [h, if_true]
      exact ih store hu
    · simp only [h, Bool.false_eq_true, if_false]
      apply ih
      exact uniq_insert store _ hu (by simpa using h)

/-- Claim C1 (reason: the backend store and orchestrator are modelled
from the spec, §4.4/§4.5): starting from any store satisfying the
`(account_id, external_id)` uniqueness invariant, a sync cycle preserves
it — so two stored messages of one account with equal resolved dedup
keys are the same row — and running the same sync again against the
unchanged fetched sequence inserts zero new rows and leaves the store
unchanged. -/
theorem C1_dedup_unique_and_idempotent (resolve : RawMsg → JStr)
    (sanitize : JStr → JStr) (acct : Nat) (store : List StoredMsg)
    (msgs : List RawMsg) (hu : uniqKeys store) :
    uniqKeys (runSync resolve sanitize acct store msgs).store ∧
    (runSync resolve sanitize acct
      (runSync resolve sanitize acct store msgs).store msgs).inserted = 0 ∧
    (runSync resolve sanitize acct
      (runSync resolve sanitize acct store msgs).store msgs).store =
      (runSync resolve sanitize acct store msgs).store := by
  refine ⟨runSync_uniq resolve sanitize acct msgs store hu, ?_, ?_⟩ <;>
    rw [runSync_all_present resolve sanitize acct msgs
      (runSync resolve sanitize acct store msgs).store
      (runSync_keys_present resolve sanitize acct msgs store)]

/-- Witness for C1: syncing a duplicated delivery of external id `X123`
into an empty store, twice. -/
theorem C1_dedup_unique_and_idempotent_witness :
    uniqKeys ([] : List StoredMsg) ∧
    (uniqKeys (runSync (fun r => r.external_id) id 1 [] demoRaws).store ∧
      (runSync (fun r => r.external_id) id 1
        (runSync (fun r => r.external_id) id 1 [] demoRaws).store
        demoRaws).inserted = 0 ∧
      (runSync (fun r => r.external_id) id 1
        (runSync (fun r => r.external_id) id 1 [] demoRaws).store
        demoRaws).store =
        (runSync (fun r => r.external_id) id 1 [] demoRaws).store) := by
  have hu : uniqKeys ([] : List StoredMsg) := by simp [uniqKeys]
  exact ⟨hu,
    C1_dedup_unique_and_idempotent (fun r => r.external_id) id 1 [] demoRaws hu⟩

lemma filterAttrs_no_on (attrs : List Attr) :
    (filterAttrs attrs).all
      (fun a => !(isPre ['o', 'n'] (toLowerStr a.name))) = true := by
  apply List.all_eq_true.mpr
  intro a ha
  exact (List.mem_filter.mp ha).2

lemma blockSrc_name (a : Attr) : (blockSrc a).name = a.name := by
  unfold blockSrc
  split <;> rfl

lemma imgAttrs_no_on (n : JStr) (attrs : List Attr)
    (h : attrs.all (fun a => !(isPre ['o', 'n'] (toLowerStr a.name))) = true) :
    (imgAttrs n attrs).all
      (fun a => !(isPre ['o', 'n'] (toLowerStr a.name))) = true := by
  by_cases hn : n = str "img"
  · rw [imgAttrs, if_pos hn, List.all_map]
    apply List.all_eq_true.mpr
    intro a ha
    have := List.all_eq_true.mp h a ha
    simpa [Function.comp, blockSrc_name] using this
  · rwa [imgAttrs, if_neg hn]

lemma sanitizeToks_safe (ts : List Tok) :
    ∀ sk, (sanitizeToks ts sk).1.all noScriptTok = true ∧
      (sanitizeToks ts sk).1.all noOnAttrTok = true := by
  induction ts with
  | nil => intro sk; simp [sanitizeToks]
  | cons t rest ih =>
    intro sk
    cases sk with
    | some m =>
      cases t with
      | text s => simpa [sanitizeToks] using ih (some m)
      | tagOpen n attrs => simpa [sanitizeToks] using ih (some m)
      | tagClose n =>
        simp only [sanitizeToks]
        by_cases h : n = m
        · simpa [h] using ih none
        · simpa [h] using ih (some m)
    | none =>
      cases t with
      | text s =>
        simp only [sanitizeToks, List.all_cons]
        refine ⟨?_, ?_⟩ <;> simp [noScriptTok, noOnAttrTok, (ih none).1, (ih none).2]
      | tagClose n =>
        simp only [sanitizeToks, List.all_cons]
        refine ⟨?_, ?_⟩ <;> simp [noScriptTok, noOnAttrTok, (ih none).1, (ih none).2]
      | tagOpen n attrs =>
        simp only [sanitizeToks]
        by_cases h : n = str "script" ∨ n = str "style"
        · have hb : (n = str "script" || n = str "style") = true := by
            rcases h with h | h <;> simp [h]
          rw [if_pos hb]
          exact ih (some n)
        · have hb : ¬((n = str "script" || n = str "style") = true) := by
            simpa using h
          rw [if_neg hb]
          push_neg at h
          simp only [List.all_cons, Bool.and_eq_true]
          constructor
          · exact ⟨by simp [noScriptTok, h.1], (ih none).1⟩
          · refine ⟨?_, (ih none).2⟩
            simp only [noOnAttrTok]
            exact imgAttrs_no_on n (filterAttrs attrs) (filterAttrs_no_on attrs)

/-- Claim C5 (reason: the sanitizer is modelled from the spec, §4.2):
for every input string — malformed HTML, truncated tags and unclosed
elements included — sanitization is a total function, its output token
stream contains no `script` element and no inline `on*` event-handler
attribute, and the output string is exactly the serialization of that
checked stream. -/
theorem C5_sanitizer_never_emits_script_or_handlers (input : JStr) :
    (sanitizedToks input).all noScriptTok = true ∧
    (sanitizedToks input).all noOnAttrTok = true ∧
    sanitizeHtml input =
      (serializeToks (sanitizedToks input),
        (sanitizeToks (tokenize (input.length + 1) input) none).2) :=
  ⟨(sanitizeToks_safe (tokenize (input.length + 1) input) none).1,
    (sanitizeToks_safe (tokenize (input.length + 1) input) none).2, rfl⟩

lemma map_id_on {α : Type} (l : List α) (f : α → α)
    (h : ∀ m ∈ l, f m = m) : l.map f = l := by
  induction l with
  | nil => rfl
  | cons a rest ih =>
    simp only [List.map_cons, h a (List.mem_cons_self a rest),
      ih (fun m hm => h m (List.mem_cons_of_mem a hm))]

lemma canHide_after_hide (s : MailStore) (i ts : Nat) :
    canHide (hide s i ts) i = false := by
  by_cases h : canHide s i = true
  · rw [hide, if_pos h]
    simp only [canHide, List.any_map]
    apply List.any_eq_false.mpr
    intro m _
    by_cases hmi : m.id = i <;> simp [Function.comp, hideRow, hmi]
  · rw [hide, if_neg h]
    simpa using h

lemma canRestore_after_restore (s : MailStore) (i ts : Nat) :
    canRestore (restore s i ts) i = false := by
  by_cases h : canRestore s i = true
  · rw [restore, if_pos h]
    simp only [canRestore, List.any_map]
    apply List.any_eq_false.mpr
    intro m _
    by_cases hmi : m.id = i <;> simp [Function.comp, unhideRow, hmi]
  · rw [restore, if_neg h]
    simpa using h

lemma hide_noop (s : MailStore) (i ts : Nat) (h : canHide s i = false) :
    hide s i ts = s := by
  rw [hide, if_neg (by simp [h])]

lemma restore_noop (s : MailStore) (i ts : Nat) (h : canRestore s i = false) :
    restore s i ts = s := by
  rw [restore, if_neg (by simp [h])]

/-- Claim C6 (reason: the backend store is modelled from the spec,
§4.5/§3): on a store with unique ids holding a visible message `i`,
`hide` and `restore` are idempotent (the second application is a no-op),
`hide` then `restore` returns the message rows to the exact pre-hide
state, and each effective transition appends its audit-log entry. -/
theorem C6_hide_restore_idempotent (s : MailStore) (i ts1 ts2 : Nat)
    (hu : uniqIds s.msgs)
    (hv : ∃ m ∈ s.msgs, m.id = i ∧ m.hidden = false) :
    hide (hide s i ts1) i ts2 = hide s i ts1 ∧
    restore (restore s i ts1) i ts2 = restore s i ts1 ∧
    (restore (hide s i ts1) i ts2).msgs = s.msgs ∧
    (hide s i ts1).audit = s.audit ++ [⟨i, str "delete", ts1⟩] ∧
    (restore (hide s i ts1) i ts2).audit =
      s.audit ++ [⟨i, str "delete", ts1⟩, ⟨i, str "restore", ts2⟩] := by
  obtain ⟨m0, hm0, hm0i, hm0h⟩ := hv
  have hall : ∀ m ∈ s.msgs, m.id = i → m.hidden = false := by
    intro m hm hmi
    have : m = m0 := hu m hm m0 hm0 (hmi.trans hm0i.symm)
    rw [this]
    exact hm0h
  have hch : canHide s i = true := by
    simp only [canHide, List.any_eq_true]
    exact ⟨m0, hm0, by simp [hm0i, hm0h]⟩
  have hhide : hide s i ts1 =
      { msgs := s.msgs.map (hideRow i),
        audit := s.audit ++ [⟨i, str "delete", ts1⟩] } := by
    rw [hide, if_pos hch]
  have hcr : canRestore (hide s i ts1) i = true := by
    rw [hhide]
    simp only [canRestore, List.any_eq_true, List.mem_map]
    exact ⟨hideRow i m0, ⟨m0, hm0, rfl⟩, by simp [hideRow, hm0i]⟩
  have hrest : restore (hide s i ts1) i ts2 =
      { msgs := (s.msgs.map (hideRow i)).map (unhideRow i),
        audit := s.audit ++ [⟨i, str "delete", ts1⟩, ⟨i, str "restore", ts2⟩] } := by
    rw [restore, if_pos hcr, hhide]
    simp
  refine ⟨?_, ?_, ?_, ?_, ?_⟩
  · exact hide_noop (hide s i ts1) i ts2 (canHide_after_hide s i ts1)
  · exact restore_noop (restore s i ts1) i ts2 (canRestore_after_restore s i ts1)
  · rw [hrest]
    show (s.msgs.map (hideRow i)).map (unhideRow i) = s.msgs
    rw [List.map_map]
    apply map_id_on
    intro m hm
    by_cases hmi : m.id = i
    · have hmh := hall m hm hmi
      obtain ⟨mid, mhid, mpay⟩ := m
      have hmi2 : mid = i := hmi
      have hmh2 : mhid = false := hmh
      subst hmi2
      subst hmh2
      simp [Function.comp, hideRow, unhideRow]
    · simp [Function.comp, hideRow, unhideRow, hmi]
  · rw [hhide]
  · rw [hrest]

/-- Witness for C6 at the one-message demo store. -/
theorem C6_hide_restore_idempotent_witness :
    (uniqIds demoStore.msgs ∧
      ∃ m ∈ demoStore.msgs, m.id = 1 ∧ m.hidden = false) ∧
    (hide (hide demoStore 1 10) 1 11 = hide demoStore 1 10 ∧
      restore (restore demoStore 1 10) 1 11 = restore demoStore 1 10 ∧
      (restore (hide demoStore 1 10) 1 11).msgs = demoStore.msgs ∧
      (hide demoStore 1 10).audit =
        demoStore.audit ++ [⟨1, str "delete", 10⟩] ∧
      (restore (hide demoStore 1 10) 1 11).audit =
        demoStore.audit ++ [⟨1, str "delete", 10⟩, ⟨1, str "restore", 11⟩]) := by
  have h1 : uniqIds demoStore.msgs := by
    intro m1 hm1 m2 hm2 _
    simp only [demoStore, List.mem_singleton] at hm1 hm2
    rw [hm1, hm2]
  have h2 : ∃ m ∈ demoStore.msgs, m.id = 1 ∧ m.hidden = false := by
    refine ⟨⟨1, false, str "hello"⟩, ?_, rfl, rfl⟩
    simp [demoStore]
  exact ⟨⟨h1, h2⟩, C6_hide_restore_idempotent demoStore 1 10 11 h1 h2⟩

/-- Witness for C10 at a concrete environment value, argument vector and
port value. -/
theorem C10_resolve_port_precedence_witness :
    ((str "9000" : JStr) ≠ [] ∧
      [str "--app", str "--backend-port=8200"].find?
        (fun a => isPre (str "--backend-port=") a) =
          some (str "--backend-port=" ++ str "8200") ∧
      '=' ∉ str "8200" ∧
      ([str "--app"].find? (fun a => isPre (str "--backend-port=") a) =
        none)) ∧
    (resolvePort (some (str "9000")) [str "--app", str "--backend-port=8200"] =
        str "9000" ∧
      resolvePort none [str "--app", str "--backend-port=8200"] = str "8200" ∧
      resolvePort (some (str "9000")) [str "--app"] = str "9000" ∧
      resolvePort none [str "--app"] = str "8137" ∧
      resolvePort none [] = str "8137" ∧
      baseUrl none [] = str "http://127.0.0.1:8137") :=
  ⟨⟨by decide, by decide, by decide, by decide⟩,
    C10_resolve_port_precedence (str "9000") (str "8200")
      [str "--app", str "--backend-port=8200"] [str "--app"]
      (by decide) (by decide) (by decide) (by decide)⟩

end EmailClient
